import Mathlib

/-!
# Verification of the SOLPS analysis toolkit B2.5 streaming reader

Shallow embedding of `src/core/base_reader.py` (`B2fReadMixin._read_field`,
`B2fReadMixin._find_field_line`, `_read_rfield`, `_read_ifield`) and
`src/io/readers/b2fgmtry_reader.py` (`B2GeometryReader._detect_version`,
`_read_modern_format`, `_read_legacy_format`, `read`).

Modelling conventions:
* A text stream is a fixed character list `content : List Char` plus a
  cursor `pos : Nat`.  All inputs considered are ASCII, so the byte
  arithmetic the source performs with `len(...encode())` coincides with
  character counts.
* The decisive fact about the field decoder: `base_reader.py:73` calls
  `self._find_field_line(self._file_obj, fieldname)`, but the method is
  declared `_find_field_line(self, fieldname)` at line 123.  The bound
  call passes one positional argument too many, so Python raises
  `TypeError` unconditionally — on every `_read_field` invocation that
  passes the open-file guard, before any stream scan, outside every `try`
  block, with the cursor unmoved (only `tell()` at line 70 has run, which
  does not move the cursor).  `readFieldCore` embeds exactly this; the
  header parsing, dimension check, `np.loadtxt` batch reads and the
  rollback `seek`s at lines 76–120 are unreachable program text and are
  not modelled.
* `_find_field_line`'s own body (lines 123–150) is complete and
  well-formed; it is embedded separately as `findFromAux` /
  `findFieldLinePos` (exact cursor reconciliation, unterminated trailing
  line never matched, `EOFError` at exhaustion), since the locator
  component itself is what the locator claims are about.
* `NDArr`, `DType` and `DimEntry` mirror the decoder's interface types
  (numpy arrays of 64-bit integers or doubles, and the `dims` tuples
  callers pass, including the one-element tuple holding the `nx` array)
  so the model's signatures match the source even though no decoder call
  ever constructs an array.
* Python exceptions become constructors of `Err`.  Definitions whose
  source bodies are elided placeholders carry a doc comment starting
  `Modelled from the spec:`.
-/

/-- ASCII whitespace, as recognised by Python's `str.strip()` and the
regex `\s` class (ASCII fragment). -/
def isSpaceChar (c : Char) : Bool :=
  c = ' ' || c = '\t' || c = '\n' || c = '\r' || c = '\x0b' || c = '\x0c'

/-- A regex `\w` word character (ASCII fragment). -/
def isWordChar (c : Char) : Bool :=
  c.isAlphanum || c = '_'

/-- `startsWithL n h` is true when `n` is an initial segment of `h`. -/
def startsWithL : List Char → List Char → Bool
  | [], _ => true
  | _ :: _, [] => false
  | a :: as, b :: bs => a = b && startsWithL as bs

/-- Substring test: the semantics of the source's header pattern
`re.compile(rf'.*{re.escape(fieldname)}.*').match(line)` on a line that
contains no newline — it succeeds iff `fieldname` occurs in `line`. -/
def isSubstr (needle : List Char) : List Char → Bool
  | [] => needle.isEmpty
  | c :: rest => startsWithL needle (c :: rest) || isSubstr needle rest

/-- Read one line: the characters before the first `'\n'` (or all of them
if there is none), together with the rest after that newline. -/
def readLineL : List Char → List Char × List Char
  | [] => ([], [])
  | c :: rest =>
    if c = '\n' then ([], rest)
    else
      let p := readLineL rest
      (c :: p.1, p.2)

/-- Python `str.strip()`. -/
def stripL (cs : List Char) : List Char :=
  ((cs.dropWhile isSpaceChar).reverse.dropWhile isSpaceChar).reverse

/-- Digit run to a natural number (most significant first). -/
def digitsToNat : List Char → Nat → Nat
  | [], n => n
  | c :: rest, n => digitsToNat rest (n * 10 + (c.toNat - '0'.toNat))

/-- The two element types used by the reader: `np.int64` (via
`_read_ifield`) and `np.float64` (via `_read_rfield`). -/
inductive DType where
  | i64
  | f64
deriving DecidableEq

/-- A numpy array: a shape and the element values in row-major order
(values as exact rationals; every value the sources handle is a small
integer, exactly representable in both `int64` and IEEE `float64`). -/
structure NDArr where
  shape : List Nat
  data : List Rat
deriving DecidableEq

/-- One entry of the `dims` tuple handed to `_read_field`.  The modern
format path passes `dims=(gmtry['nx'],)`, a tuple holding a numpy array,
so an entry is either a plain integer or an array of values. -/
inductive DimEntry where
  | scalar (n : Int)
  | arr (vs : List Rat)
deriving DecidableEq

/-- The error kinds the reader can raise.  (`base_reader.py` also contains
an `EOFError` raise at line 135 — modelled positionally by
`findFieldLinePos` — and message-distinguished `ValueError` raises at
lines 85–114, but every path to the latter inside `_read_field` is cut off
by the `TypeError` at line 73.) -/
inductive Err where
  | runtimeError        -- "File object is not open. Call open() first."
  | typeError           -- wrong-arity locator call at base_reader.py:73
  | versionError        -- RuntimeError("Failed to detect file version: ...")
  | keyError            -- KeyError from `legacy_data['...']`
deriving DecidableEq

/-- The scanning loop of `B2fReadMixin._find_field_line` (lines 123–150):
walk the remaining stream, test each newline-terminated line against the
substring pattern, and on a match reposition just after that line
(returning the unconsumed rest).  A trailing line with no newline stays in
the pending buffer (`lines[:-1]` never inspects it) and is not matched;
exhausting the stream raises `EOFError`.  `acc` holds the pending partial
line, reversed. -/
def findFromAux (name : List Char) (acc : List Char) :
    List Char → Option (List Char × List Char)
  | [] => none
  | c :: rest =>
    if c = '\n' then
      let line := acc.reverse
      if isSubstr name line then some (line, rest)
      else findFromAux name [] rest
    else findFromAux name (c :: acc) rest

/-- `B2fReadMixin._find_field_line` at the cursor level: on success the
cursor lands on the first character after the matched line, on `EOFError`
the reads have consumed everything from the starting position onward. -/
def findFieldLinePos (content : List Char) (pos : Nat) (name : List Char) :
    Except Unit (List Char) × Nat :=
  match findFromAux name [] (content.drop pos) with
  | none => (.error (), max pos content.length)
  | some (line, rest) => (.ok line, content.length - rest.length)

/-- `B2fReadMixin._read_field` after the open-file guard: line 70 records
the cursor with `tell()` (no movement), then line 73 calls
`self._find_field_line(self._file_obj, fieldname)` — two positional
arguments against the one-parameter signature at line 123 — which raises
`TypeError` unconditionally, outside every `try` block, before any stream
scan.  Every invocation with an open file therefore propagates `TypeError`
with the cursor at the pre-call position; the remainder of the method
(lines 76–120) is unreachable. -/
def readFieldCore (_content : List Char) (pos : Nat) (_name : List Char)
    (_dt : DType) (_dims : Option (List DimEntry)) : Except Err NDArr × Nat :=
  (.error .typeError, pos)

/-- `B2fReadMixin._read_field` including the guard on `self._file_obj`:
with no open file (attribute absent or `None`, both `none` here) it raises
`RuntimeError` at lines 67–68 without touching any stream state. -/
def readFieldM (fileObj : Option (List Char × Nat)) (name : List Char)
    (dt : DType) (dims : Option (List DimEntry)) :
    Except Err NDArr × Option (List Char × Nat) :=
  match fileObj with
  | none => (.error .runtimeError, none)
  | some (content, pos) =>
    let r := readFieldCore content pos name dt dims
    (r.1, some (content, r.2))

/-- `B2fReadMixin._read_rfield`: double-precision field. -/
def readRField (content : List Char) (pos : Nat) (name : List Char)
    (dims : Option (List DimEntry)) : Except Err NDArr × Nat :=
  readFieldCore content pos name .f64 dims

/-- `B2fReadMixin._read_ifield`: 64-bit signed integer field. -/
def readIField (content : List Char) (pos : Nat) (name : List Char)
    (dims : Option (List DimEntry)) : Except Err NDArr × Nat :=
  readFieldCore content pos name .i64 dims

/-- A parsed version header: `(major, minor, patch)`. -/
structure VersionTag where
  major : Nat
  minor : Nat
  patch : Nat
deriving DecidableEq

/-- The schema-epoch classification from `_detect_version`, line 62:
`self._is_legacy = minor < 2`. -/
def schemaIsLegacy (v : VersionTag) : Bool :=
  v.minor < 2

/-- `re.match(r'VERSION(\d{2})\.(\d{3})\.(\d{3})\s+\w+', line)`: anchored
at the start, two-digit major, three-digit minor and patch, at least one
whitespace character, at least one word character, arbitrary trailing
text. -/
def parseVersionLine (cs : List Char) : Option VersionTag :=
  match cs with
  | 'V' :: 'E' :: 'R' :: 'S' :: 'I' :: 'O' :: 'N' ::
      a :: b :: '.' :: c :: d :: e :: '.' :: f :: g :: h :: rest =>
    if [a, b, c, d, e, f, g, h].all Char.isDigit then
      match rest with
      | [] => none
      | w :: _ =>
        if isSpaceChar w then
          match rest.dropWhile isSpaceChar with
          | [] => none
          | t :: _ =>
            if isWordChar t then
              some ⟨digitsToNat [a, b] 0, digitsToNat [c, d, e] 0, digitsToNat [f, g, h] 0⟩
            else none
        else none
    else none
  | _ => none

/-- Zero-padded decimal rendering: Python `f"{n:02d}"`. -/
def pad2 (n : Nat) : String :=
  if n < 10 then "0" ++ Nat.repr n else Nat.repr n

/-- Zero-padded decimal rendering: Python `f"{n:03d}"`. -/
def pad3 (n : Nat) : String :=
  if n < 10 then "00" ++ Nat.repr n
  else if n < 100 then "0" ++ Nat.repr n
  else Nat.repr n

/-- `B2GeometryReader._detect_version`: remember the cursor, seek to 0,
read and strip the first line, seek back, match the version grammar,
derive the epoch, and seek back again.  Any failure is re-raised as
`RuntimeError("Failed to detect file version: ...")`; the cursor was
already restored before the match is attempted, so it is left at the
starting position in every outcome. -/
def detectVersion (content : List Char) (pos : Nat) :
    Except Err (String × Bool) × Nat :=
  match parseVersionLine (stripL (readLineL content).1) with
  | none => (.error .versionError, pos)
  | some v =>
    ((.ok (pad2 v.major ++ "." ++ pad3 v.minor ++ "." ++ pad3 v.patch,
           schemaIsLegacy v)), pos)

/-- A value stored in the result dictionary. -/
inductive RVal where
  | arr (a : NDArr)
  | str (s : String)
  | bool (b : Bool)
deriving DecidableEq

/-- The result `Record`: the `gmtry` dictionary as an association list (the
source assigns each key once, in order). -/
def Record := List (String × RVal)

/-- Dictionary lookup. -/
def lookupA : List (String × RVal) → String → Option RVal
  | [], _ => none
  | (k, v) :: rest, key => if k = key then some v else lookupA rest key

/-- `B2GeometryReader._read_modern_format`, parameterised by the field
reads the source elides at b2fgmtry_reader.py:79 (`# ... остальные
поля`): read `nx`, `ny` and `rg` (the latter shaped by the already-read
`nx` array, passed as the one-element tuple `dims=(gmtry['nx'],)`), run
the elided further reads, then record the version and
`format_type = 'modern'`.  No `converted_from_legacy` key is written on
this path. -/
def readModernFormatWith
    (extra : List Char → Nat → Except Err (List (String × RVal)) × Nat)
    (content : List Char) (pos : Nat) (version : String) :
    Except Err Record × Nat :=
  match readIField content pos ("nx".data) none with
  | (.error e, p) => (.error e, p)
  | (.ok nx, p1) =>
    match readIField content p1 ("ny".data) none with
    | (.error e, p) => (.error e, p)
    | (.ok ny, p2) =>
      match readRField content p2 ("rg".data) (some [.arr nx.data]) with
      | (.error e, p) => (.error e, p)
      | (.ok rg, p3) =>
        match extra content p3 with
        | (.error e, p) => (.error e, p)
        | (.ok more, p4) =>
          (.ok ([("nx", .arr nx), ("ny", .arr ny), ("rg", .arr rg)] ++ more
                ++ [("version", .str version), ("format_type", .str "modern")]), p4)

/-- Modelled from the spec: the further modern-path field reads elided at
b2fgmtry_reader.py:79.  Spec §4.4 fixes only that they are an ordered,
schema-defined list of further decoder reads appended to the record; it
names none of the fields, so this default instantiation performs no
further reads, and the claim theorems quantify over an arbitrary `extra`
instead of relying on this choice. -/
def readModernExtra (_content : List Char) (pos : Nat) :
    Except Err (List (String × RVal)) × Nat :=
  (.ok [], pos)

/-- `B2GeometryReader._read_legacy_format`, parameterised by the raw
legacy read and the `rg` conversion (their bodies are placeholders in the
source): read the raw legacy data, take `nx_old` / `ny_old` out of it (a
missing key raises `KeyError`), convert `rg`, and record the version,
`format_type = 'legacy'` and `converted_from_legacy = True`. -/
def readLegacyFormatWith
    (raw : List Char → Nat → Except Err (List (String × NDArr)) × Nat)
    (conv : List (String × NDArr) → Except Err NDArr)
    (content : List Char) (pos : Nat) (version : String) :
    Except Err Record × Nat :=
  match raw content pos with
  | (.error e, p) => (.error e, p)
  | (.ok dat, p) =>
    match (dat.lookup "nx_old", dat.lookup "ny_old") with
    | (some nx, some ny) =>
      match conv dat with
      | .error e => (.error e, p)
      | .ok rg =>
        (.ok [("nx", .arr nx), ("ny", .arr ny), ("rg", .arr rg),
              ("version", .str version), ("format_type", .str "legacy"),
              ("converted_from_legacy", .bool true)], p)
    | _ => (.error .keyError, p)

/-- Modelled from the spec: `_read_legacy_raw_data`'s body is elided in
the source (placeholder comments only); spec §4.4 says the legacy path
reads a legacy-specific ordered field sequence via the decoder.  Modelled
as decoder reads of the legacy extent and radius fields. -/
def readLegacyRawData (content : List Char) (pos : Nat) :
    Except Err (List (String × NDArr)) × Nat :=
  match readIField content pos ("nx_old".data) none with
  | (.error e, p) => (.error e, p)
  | (.ok nx, p1) =>
    match readIField content p1 ("ny_old".data) none with
    | (.error e, p) => (.error e, p)
    | (.ok ny, p2) =>
      match readRField content p2 ("rg_old".data) none with
      | (.error e, p) => (.error e, p)
      | (.ok rg, p3) =>
        (.ok [("nx_old", nx), ("ny_old", ny), ("rg_old", rg)], p3)

/-- Modelled from the spec: `_convert_legacy_rg`'s body is elided in the
source; spec §4.4 says each legacy field is mapped to its modern
equivalent.  Modelled as passing the legacy radius data through. -/
def convertLegacyRg (dat : List (String × NDArr)) : Except Err NDArr :=
  match dat.lookup "rg_old" with
  | some a => .ok a
  | none => .error .keyError

/-- `B2GeometryReader.read`, parameterised by the elided legacy and modern
internals: open the file (cursor 0), detect the version, and dispatch on
the epoch. -/
def readWith
    (raw : List Char → Nat → Except Err (List (String × NDArr)) × Nat)
    (conv : List (String × NDArr) → Except Err NDArr)
    (extra : List Char → Nat → Except Err (List (String × RVal)) × Nat)
    (content : List Char) : Except Err Record :=
  match detectVersion content 0 with
  | (.error e, _) => .error e
  | (.ok (v, isLeg), p) =>
    if isLeg then (readLegacyFormatWith raw conv content p v).1
    else (readModernFormatWith extra content p v).1

/-- `B2GeometryReader.read` with the spec-modelled elided internals. -/
def B2GeometryReader.read (content : List Char) : Except Err Record :=
  readWith readLegacyRawData convertLegacyRg readModernExtra content

/-! ## Specification-side predicate for the locator -/

/-- `FirstLineMatch name input line rest`: `line` is the first
newline-terminated line of `input` containing `name` as a substring, and
`rest` is the text after that line's newline. -/
inductive FirstLineMatch (name : List Char) : List Char → List Char → List Char → Prop
  | here (line rest : List Char) (hnl : '\n' ∉ line) (hm : isSubstr name line = true) :
      FirstLineMatch name (line ++ '\n' :: rest) line rest
  | skip (ln input' line rest : List Char) (hnl : '\n' ∉ ln)
      (hm : isSubstr name ln = false) (h : FirstLineMatch name input' line rest) :
      FirstLineMatch name (ln ++ '\n' :: input') line rest

/-! ## Helper lemmas about the locator loop -/

theorem exists_first_line (input : List Char) (h : '\n' ∈ input) :
    ∃ ln rest, input = ln ++ '\n' :: rest ∧ '\n' ∉ ln := by
  induction input with
  | nil => cases h
  | cons c cs ih =>
    by_cases hc : c = '\n'
    · subst hc
      exact ⟨[], cs, rfl, List.not_mem_nil _⟩
    · have hcs : '\n' ∈ cs := by
        rcases List.mem_cons.mp h with h1 | h2
        · exact absurd h1.symm hc
        · exact h2
      obtain ⟨ln, rest, rfl, hnl⟩ := ih hcs
      refine ⟨c :: ln, rest, rfl, ?_⟩
      intro hmem
      rcases List.mem_cons.mp hmem with h1 | h2
      · exact hc h1.symm
      · exact hnl h2

theorem findFromAux_noNL (name : List Char) (input : List Char) (hln : '\n' ∉ input) :
    ∀ acc, findFromAux name acc input = none := by
  induction input with
  | nil => intro acc; rfl
  | cons c cs ih =>
    intro acc
    have hc : ¬(c = '\n') := fun h => hln (List.mem_cons.mpr (Or.inl h.symm))
    simp only [findFromAux, if_neg hc]
    exact ih (fun hm => hln (List.mem_cons_of_mem _ hm)) _

theorem findFromAux_newline (name ln rest : List Char) (hln : '\n' ∉ ln) :
    ∀ acc, findFromAux name acc (ln ++ '\n' :: rest) =
      if isSubstr name (acc.reverse ++ ln) then some (acc.reverse ++ ln, rest)
      else findFromAux name [] rest := by
  induction ln with
  | nil =>
    intro acc
    simp [findFromAux]
  | cons c cs ih =>
    intro acc
    have hc : ¬(c = '\n') := fun h => hln (List.mem_cons.mpr (Or.inl h.symm))
    simp only [List.cons_append, findFromAux, if_neg hc, List.append_eq]
    rw [ih (fun hm => hln (List.mem_cons_of_mem _ hm)) (c :: acc)]
    simp [List.reverse_cons, List.append_assoc]

theorem findFromAux_firstLineMatch_bounded (name : List Char) :
    ∀ (N : Nat) (input line rest : List Char), input.length ≤ N →
      findFromAux name [] input = some (line, rest) →
      FirstLineMatch name input line rest := by
  intro N
  induction N with
  | zero =>
    intro input line rest hN h
    have : input = [] := List.eq_nil_of_length_eq_zero (Nat.le_zero.mp hN)
    subst this
    exact absurd h (by simp [findFromAux])
  | succ n ih =>
    intro input line rest hN h
    by_cases hnl : '\n' ∈ input
    · obtain ⟨ln, tail, heq, hln⟩ := exists_first_line input hnl
      subst heq
      rw [findFromAux_newline name ln tail hln []] at h
      simp only [List.reverse_nil, List.nil_append] at h
      by_cases hm : isSubstr name ln = true
      · rw [if_pos hm] at h
        simp only [Option.some.injEq, Prod.mk.injEq] at h
        obtain ⟨rfl, rfl⟩ := h
        exact .here ln tail hln hm
      · rw [if_neg hm] at h
        refine .skip ln tail line rest hln (by simpa using hm) (ih tail line rest ?_ h)
        simp only [List.length_append, List.length_cons] at hN
        omega
    · rw [findFromAux_noNL name input hnl []] at h
      exact absurd h (by simp)

theorem findFromAux_firstLineMatch (name input line rest : List Char)
    (h : findFromAux name [] input = some (line, rest)) :
    FirstLineMatch name input line rest :=
  findFromAux_firstLineMatch_bounded name input.length input line rest (Nat.le_refl _) h

theorem FirstLineMatch.rest_length_lt {name input line rest : List Char}
    (h : FirstLineMatch name input line rest) : rest.length < input.length := by
  induction h with
  | here line rest hnl hm =>
    simp only [List.length_append, List.length_cons]
    omega
  | skip ln input' line rest hnl hm h ih =>
    simp only [List.length_append, List.length_cons]
    omega

theorem FirstLineMatch.rest_suffix {name input line rest : List Char}
    (h : FirstLineMatch name input line rest) : rest <:+ input := by
  induction h with
  | here line rest hnl hm => exact ⟨line ++ ['\n'], by simp⟩
  | skip ln input' line rest hnl hm h ih => exact ih.trans ⟨ln ++ ['\n'], by simp⟩

theorem drop_length_sub_of_suffix {l₂ l : List Char} (h : l₂ <:+ l) :
    l.drop (l.length - l₂.length) = l₂ := by
  obtain ⟨t, rfl⟩ := h
  rw [List.length_append, Nat.add_sub_cancel, List.drop_left]

/-! ## Claim theorems -/

/-- Claim C10: invoking the field decoder with no open file object
(attribute absent or `None`) fails with `RuntimeError` before touching any
stream state — the decoder never dereferences a missing file handle. -/
theorem readFieldRequiresOpenFile (name : List Char) (dt : DType)
    (dims : Option (List DimEntry)) :
    readFieldM none name dt dims = (.error .runtimeError, none) := rfl

/-- Claim C5: the schema epoch is a pure function of the parsed VersionTag
(`legacy` iff `minor < 2`); `VERSION03.002.000 X` parses to
`VersionTag(3,2,0)` with epoch modern, and `VERSION03.001.005 X` parses to
`VersionTag(3,1,5)` with epoch legacy. -/
theorem versionGrammarEpoch :
    (∀ v : VersionTag, schemaIsLegacy v = decide (v.minor < 2))
    ∧ parseVersionLine ("VERSION03.002.000 X".data) = some ⟨3, 2, 0⟩
    ∧ parseVersionLine ("VERSION03.001.005 X".data) = some ⟨3, 1, 5⟩
    ∧ schemaIsLegacy ⟨3, 2, 0⟩ = false
    ∧ schemaIsLegacy ⟨3, 1, 5⟩ = true :=
  ⟨fun _ => rfl, rfl, rfl, rfl, rfl⟩

/-- Claim C8: version detection reads the first line via an absolute seek
to position 0 and restores the prior cursor: for every starting position
the cursor is unchanged, the result is independent of the starting
position, and repeating the operation yields the same result
(idempotence). -/
theorem versionDetectFrame (content : List Char) (pos : Nat) :
    (detectVersion content pos).2 = pos
    ∧ (detectVersion content pos).1 = (detectVersion content 0).1
    ∧ detectVersion content ((detectVersion content pos).2) = detectVersion content pos := by
  have key : ∀ q : Nat, detectVersion content q = ((detectVersion content 0).1, q) := by
    intro q
    unfold detectVersion
    cases parseVersionLine (stripL (readLineL content).1) <;> rfl
  refine ⟨by rw [key pos], by rw [key pos], ?_⟩
  rw [key pos]
  exact key pos

/-- Claim C6: a successful field-locate leaves the cursor exactly at the
first character after the first newline-terminated line (from the starting
position onward) containing the field name as a substring, and returns
that line's text; a subsequent successful locate resumes from that
position and advances strictly, never re-matching already-consumed
text. -/
theorem fieldLocatorContract (content : List Char) (pos : Nat)
    (name line : List Char) (p' : Nat)
    (h : findFieldLinePos content pos name = (.ok line, p')) :
    (∃ rest, FirstLineMatch name (content.drop pos) line rest ∧ content.drop p' = rest)
    ∧ ∀ name2 line2 p'',
        findFieldLinePos content p' name2 = (.ok line2, p'') → p' < p'' := by
  unfold findFieldLinePos at h
  cases hf : findFromAux name [] (content.drop pos) with
  | none =>
    rw [hf] at h
    exact absurd h (by simp)
  | some pr =>
    obtain ⟨l0, rest⟩ := pr
    rw [hf] at h
    simp only [Prod.mk.injEq, Except.ok.injEq] at h
    obtain ⟨rfl, rfl⟩ := h
    have hm := findFromAux_firstLineMatch name _ _ _ hf
    have hsuf : rest <:+ content := hm.rest_suffix.trans (List.drop_suffix pos content)
    have hdrop : content.drop (content.length - rest.length) = rest :=
      drop_length_sub_of_suffix hsuf
    refine ⟨⟨rest, hm, hdrop⟩, ?_⟩
    intro name2 line2 p'' h2
    unfold findFieldLinePos at h2
    rw [hdrop] at h2
    cases hf2 : findFromAux name2 [] rest with
    | none =>
      rw [hf2] at h2
      exact absurd h2 (by simp)
    | some pr2 =>
      obtain ⟨l2, rest2⟩ := pr2
      rw [hf2] at h2
      simp only [Prod.mk.injEq, Except.ok.injEq] at h2
      obtain ⟨rfl, rfl⟩ := h2
      have hlt : rest2.length < rest.length :=
        (findFromAux_firstLineMatch name2 _ _ _ hf2).rest_length_lt
      have hle : rest.length ≤ content.length := hsuf.length_le
      omega

/-- Witness: the locator contract at the concrete stream
`"aa\nFF 1 2\nxx\n"` with field name `FF` (matched line `FF 1 2`, cursor
landing at offset 10). -/
theorem fieldLocatorContractWitness :
    (∃ rest, FirstLineMatch ("FF".data) ((("aa\nFF 1 2\nxx\n").data).drop 0)
        ("FF 1 2".data) rest ∧ (("aa\nFF 1 2\nxx\n").data).drop 10 = rest)
    ∧ ∀ name2 line2 p'',
        findFieldLinePos (("aa\nFF 1 2\nxx\n").data) 10 name2 = (.ok line2, p'') →
          10 < p'' :=
  fieldLocatorContract (("aa\nFF 1 2\nxx\n").data) 0 ("FF".data) ("FF 1 2".data) 10 rfl

/-- Claim C1 (code bug): every field-decoder invocation with an open file
fails with the `TypeError` from the wrong-arity locator call at
base_reader.py:73, with the cursor at the pre-call position, before any of
the claim's four field-level errors can occur — the rollback seeks the
claim describes are unreachable; evaluated at a concrete well-formed
field. -/
theorem readFieldArityBug :
    (∀ (content : List Char) (pos : Nat) (name : List Char) (dt : DType)
       (dims : Option (List DimEntry)),
        readFieldCore content pos name dt dims = (.error .typeError, pos))
    ∧ readFieldCore (("F 1 4\n1 2 3 4\n").data) 0 ("F".data) .i64 none
        = (.error .typeError, 0) :=
  ⟨fun _ _ _ _ _ => rfl, rfl⟩

/-- Claim C2 (code bug): no field decode ever returns successfully — every
call ends in the line-73 `TypeError` — so the claimed success invariant
(`elements = declared count = product(shape)`) is unreachable; evaluated
at a well-formed field (`"G 1 2\n7 8\n"`, declared count 2, two tokens
present) that the spec expects to decode successfully. -/
theorem decodedCountUnreachable :
    (∀ (content : List Char) (pos : Nat) (name : List Char) (dt : DType)
       (dims : Option (List DimEntry)),
        (readFieldCore content pos name dt dims).1 = .error .typeError)
    ∧ readFieldCore (("G 1 2\n7 8\n").data) 0 ("G".data) .i64 none
        = (.error .typeError, 0) :=
  ⟨fun _ _ _ _ _ => rfl, rfl⟩

/-- Claim C3 (code bug): decoding field `T` from the truncated stream
`"T 1 4\n1 2\n"` (count 4 declared, 2 tokens present) fails with the
line-73 `TypeError`, not with a `TruncatedField` error — the truncation
check the claim requires is never reached (the cursor is at the pre-call
position only because the failure precedes any read). -/
theorem truncatedFieldUnreachable :
    readFieldCore (("T 1 4\n1 2\n").data) 0 ("T".data) .i64 none
      = (.error .typeError, 0) := rfl

/-- Claim C7 (code bug): a decode invoked with an explicit DimensionSpec
whose product differs from the declared count (`"D 1 4\n1 2 3 4\n"` with
shape `(3,)` against count 4) fails with the line-73 `TypeError`, not with
`DimensionMismatch` — the consistency check at base_reader.py:94–96 is
never reached. -/
theorem dimensionMismatchUnreachable :
    readFieldCore (("D 1 4\n1 2 3 4\n").data) 0 ("D".data) .i64 (some [.scalar 3])
      = (.error .typeError, 0) := rfl

/-- Claim C4 (amended): a legacy-epoch read that returns a record sets
`converted_from_legacy = true` and `format_type = "legacy"` (for any
legacy raw-read and conversion internals); a modern-epoch read never
returns a record — for any elided further reads, its first field read
fails with the decoder's wrong-arity `TypeError`. -/
theorem recordEpochFlagsAmended :
    (∀ (raw : List Char → Nat → Except Err (List (String × NDArr)) × Nat)
       (conv : List (String × NDArr) → Except Err NDArr)
       (content : List Char) (pos : Nat) (v : String) (r : Record) (p' : Nat),
        readLegacyFormatWith raw conv content pos v = (.ok r, p') →
          lookupA r "converted_from_legacy" = some (.bool true)
          ∧ lookupA r "format_type" = some (.str "legacy"))
    ∧ (∀ (extra : List Char → Nat → Except Err (List (String × RVal)) × Nat)
         (content : List Char) (pos : Nat) (v : String),
        readModernFormatWith extra content pos v = (.error .typeError, pos)) := by
  constructor
  · intro raw conv content pos v r p' h
    unfold readLegacyFormatWith at h
    repeat' split at h
    all_goals first
      | (simp only [Prod.mk.injEq, Except.ok.injEq] at h
         obtain ⟨rfl, rfl⟩ := h
         exact ⟨rfl, rfl⟩)
      | simp at h
  · intro extra content pos v
    rfl

/-- Witness: the legacy-half flags at a concrete successful legacy read
(constant raw/conversion internals), and the modern half at a concrete
stream. -/
theorem recordEpochFlagsWitness :
    (lookupA [("nx", RVal.arr ⟨[1], [5]⟩), ("ny", RVal.arr ⟨[1], [3]⟩),
              ("rg", RVal.arr ⟨[1], [7]⟩), ("version", RVal.str "01.001.000"),
              ("format_type", RVal.str "legacy"),
              ("converted_from_legacy", RVal.bool true)] "converted_from_legacy"
        = some (.bool true)
      ∧ lookupA [("nx", RVal.arr ⟨[1], [5]⟩), ("ny", RVal.arr ⟨[1], [3]⟩),
              ("rg", RVal.arr ⟨[1], [7]⟩), ("version", RVal.str "01.001.000"),
              ("format_type", RVal.str "legacy"),
              ("converted_from_legacy", RVal.bool true)] "format_type"
        = some (.str "legacy"))
    ∧ readModernFormatWith readModernExtra (("nx 1 1\n5 0\n").data) 0 "03.002.000"
        = (.error .typeError, 0) :=
  ⟨recordEpochFlagsAmended.1
      (fun _ p => (.ok [("nx_old", ⟨[1], [5]⟩), ("ny_old", ⟨[1], [3]⟩)], p))
      (fun _ => .ok ⟨[1], [7]⟩) [] 0 "01.001.000" _ 0 rfl,
   recordEpochFlagsAmended.2 readModernExtra (("nx 1 1\n5 0\n").data) 0 "03.002.000"⟩

/-- Counterexample to claim C4 as stated: a concrete modern-epoch file is
detected as modern, yet its read produces no record at all — it fails with
the decoder's `TypeError` — so no modern-epoch read yields a record with
`converted_from_legacy = false`. -/
theorem recordEpochFlagsCounterexample :
    detectVersion (("VERSION03.002.000 H\n").data) 0 = (.ok ("03.002.000", false), 0)
    ∧ B2GeometryReader.read (("VERSION03.002.000 H\n").data) = .error .typeError :=
  ⟨rfl, rfl⟩

/-- Counterexample to claim C9 as stated: reading the scenario stream
`"VERSION03.002.000 H\nNX 1 1\n5\nNY 1 1\n3\n"` does not succeed with a
record — it fails with the decoder's `TypeError`. -/
theorem scenarioStreamCounterexample :
    B2GeometryReader.read (("VERSION03.002.000 H\nNX 1 1\n5\nNY 1 1\n3\n").data)
      = .error .typeError := rfl

/-- Claim C9 (amended): on the scenario stream, version detection succeeds
with tag `03.002.000` and the modern epoch, but the read then fails with
the `TypeError` raised by the first field read's wrong-arity locator call
(base_reader.py:73) before any stream scan; no record is produced. -/
theorem scenarioStreamAmended :
    detectVersion (("VERSION03.002.000 H\nNX 1 1\n5\nNY 1 1\n3\n").data) 0
      = (.ok ("03.002.000", false), 0)
    ∧ B2GeometryReader.read (("VERSION03.002.000 H\nNX 1 1\n5\nNY 1 1\n3\n").data)
      = .error .typeError :=
  ⟨rfl, rfl⟩
